import Mathlib

/-
  Verification of the 746 flash-translation-layer (FTL) project.

  The development shallowly embeds the relevant C++ sources:
    * namespace Ckpt1 models the direct-mapped FTL of src/unnamed/part_002
      (class MyFTL there: lba_page_map_ / page_lba_map_ vectors, a log tip
      block and a free list of log blocks; Trim and ReadTranslate issue no
      controller operations).
    * namespace Ctrl models the pieces of Controller in src/src/746FlashSim.h
      that the claims mention: UpdateBlockErasure and the ReadLBA delivery path.
    * namespace Final models src/src/myFTL.cpp (log-reservation blocks, the
      Clean procedure and the RoundRobinPolicy garbage-collection policy,
      i.e. SELECTED_GC_POLICY = 0).

  Machine integers: the C++ code stores page indexes and LBAs in uint16_t
  (pg_size_t) in part_002; the model keeps Nat and inserts an explicit
  % 65536 exactly where the C++ assigns to a pg_size_t.  The well-formedness
  predicates below bound the geometry so that the documented maxima of the
  sources hold (at most 40960 pages), which makes the wrap-arounds vacuous;
  the theorems carry those bounds as hypotheses.
-/

namespace FlashSim

/-- Pointwise update of a total map, used to model writes to a
std::vector slot or a std::unordered_map entry. -/
def upd {α : Type} (f : Nat → α) (k : Nat) (v : α) : Nat → α :=
  fun i => if i = k then v else f i

/-- class Address of common.h: the 5-tuple physical address.  The C++
fields are uint8_t (package, die) and uint16_t (plane, block, page); under
the geometry bounds used in the theorems every component fits, so Nat
components model the fields exactly. -/
structure Address where
  package : Nat
  die : Nat
  plane : Nat
  block : Nat
  page : Nat
deriving DecidableEq, Repr

/-- enum class ExecState of common.h. -/
inductive ExecState where
  | SUCCESS
  | FAILURE
deriving DecidableEq, Repr

/-- enum class OpCode of common.h. -/
inductive OpCode where
  | READ
  | WRITE
  | ERASE
deriving DecidableEq, Repr

/-- One operation issued through the ExecCallBack to the controller. -/
abbrev CtrlOp := OpCode × Address

/-- The configuration surface read from ConfBase: geometry, the per-block
erase budget and the over-provisioning percentage. -/
structure Config where
  ssd_size : Nat
  package_size : Nat
  die_size : Nat
  plane_size : Nat
  block_size : Nat
  block_erase_count : Nat
  overprovisioning : Nat
deriving DecidableEq, Repr

/-- num_blocks = ssd_size * package_size * die_size * plane_size. -/
def num_blocks (c : Config) : Nat :=
  c.ssd_size * c.package_size * c.die_size * c.plane_size

/-- num_op_blocks = (num_blocks * op + 100 / 2) / 100, the round-to-nearest
integer computation shared by both MyFTL constructors. -/
def num_op_blocks (c : Config) : Nat :=
  (num_blocks c * c.overprovisioning + 100 / 2) / 100

/-- num_pages = num_blocks * block_size. -/
def num_pages (c : Config) : Nat :=
  num_blocks c * c.block_size

/-- largest_lba = (num_blocks - num_op_blocks) * block_size - 1. -/
def largest_lba (c : Config) : Nat :=
  (num_blocks c - num_op_blocks c) * c.block_size - 1

/-- Address(0, 0, 0, 0, 0), the address returned alongside FAILURE. -/
def addr0 : Address := ⟨0, 0, 0, 0, 0⟩

namespace Ckpt1

/-- constexpr pg_size_t INVALID_PAGE = numeric_limits of uint16_t, i.e. 65535. -/
def INVALID_PAGE : Nat := 65535

/-- The member state of MyFTL in src/unnamed/part_002.  The two vectors are
modelled as total maps that are INVALID_PAGE outside the written range,
which matches the constructor initialisation. -/
structure State where
  lba_page_map : Nat → Nat
  page_lba_map : Nat → Nat
  free_log_blocks : List Nat
  used_log_blocks : List Nat
  log_block : Nat
  log_page_offset : Nat

/-- The constructor of part_002: both maps all-INVALID, every block on the
free list in ascending order, then the first free block becomes the log tip
with offset 0. -/
def init (c : Config) : State :=
  let free0 := List.range (num_blocks c)
  { lba_page_map := fun _ => INVALID_PAGE
    page_lba_map := fun _ => INVALID_PAGE
    free_log_blocks := free0.tail
    used_log_blocks := []
    log_block := free0.headD 0
    log_page_offset := 0 }

/-- GetPageIdxFromAddr of part_002 (the same formula as GetPageIdx in
src/src/myFTL.cpp).  The source returns pg_size_t (uint16_t), i.e. the value
truncated mod 65536; every theorem about this function carries a bound
(num_pages at most 65535 in Ckpt1.WF, at most 65536 in GeomWF) under which
the result is below 65536 on the domain used, so the untruncated Nat value
coincides with the source. -/
def GetPageIdxFromAddr (c : Config) (addr : Address) : Nat :=
  addr.package * c.package_size * c.die_size * c.plane_size * c.block_size +
    addr.die * c.die_size * c.plane_size * c.block_size +
    addr.plane * c.plane_size * c.block_size +
    addr.block * c.block_size +
    addr.page

/-- GetAddrFromPageIdx of part_002 (the same formula as CalcPhyAddr in
src/src/myFTL.cpp, with the flat page index in place of the LBA).  The
source parameter is pg_size_t (uint16_t); every theorem applies this
function only to indexes below 65536 (num_pages bounded by Ckpt1.WF or
GeomWF), where the uint16 truncation of the source is the identity. -/
def GetAddrFromPageIdx (c : Config) (page_idx : Nat) : Address :=
  { package := page_idx / (c.package_size * c.die_size * c.plane_size * c.block_size)
    die := (page_idx / (c.die_size * c.plane_size * c.block_size)) % c.package_size
    plane := (page_idx / (c.plane_size * c.block_size)) % c.die_size
    block := (page_idx / c.block_size) % c.plane_size
    page := page_idx % c.block_size }

/-- IsValidLba of part_002: lba <= largest_lba. -/
def IsValidLba (c : Config) (lba : Nat) : Bool :=
  lba ≤ largest_lba c

/-- ReadTranslate of part_002.  The callback argument is cast to void in the
source, so the model returns the (always empty) list of issued controller
operations alongside the result. -/
def readTranslate (c : Config) (s : State) (lba : Nat) :
    (ExecState × Address) × List CtrlOp :=
  if IsValidLba c lba = false then ((.FAILURE, addr0), [])
  else
    let page_idx := s.lba_page_map lba
    if page_idx = INVALID_PAGE then ((.FAILURE, addr0), [])
    else ((.SUCCESS, GetAddrFromPageIdx c page_idx), [])

/-- WriteTranslate of part_002.  The % 65536 marks the two assignments into
pg_size_t storage (the freshly computed page index, and the LBA stored into
the page_lba_map_ vector).  The rollover to a fresh log block is modelled
first, exactly as the source checks log_page_offset_ >= block_size_ before
any mutation; when the free list is empty the call fails with the state
untouched. -/
def writeTranslate (c : Config) (s : State) (lba : Nat) :
    (ExecState × Address) × State × List CtrlOp :=
  if IsValidLba c lba = false then ((.FAILURE, addr0), s, [])
  else
    let roll : Option State :=
      if c.block_size ≤ s.log_page_offset then
        if s.free_log_blocks = [] then none
        else
          some { s with
                 used_log_blocks := s.used_log_blocks ++ [s.log_block]
                 log_block := s.free_log_blocks.headD 0
                 free_log_blocks := s.free_log_blocks.tail
                 log_page_offset := 0 }
      else some s
    match roll with
    | none => ((.FAILURE, addr0), s, [])
    | some s1 =>
      let prev_page_idx := s1.lba_page_map lba
      let s2 :=
        if prev_page_idx = INVALID_PAGE then s1
        else { s1 with page_lba_map := upd s1.page_lba_map prev_page_idx INVALID_PAGE }
      let page_idx := (s2.log_block * c.block_size + s2.log_page_offset) % 65536
      let s3 :=
        { s2 with
          page_lba_map := upd s2.page_lba_map page_idx (lba % 65536)
          lba_page_map := upd s2.lba_page_map lba page_idx
          log_page_offset := s2.log_page_offset + 1 }
      ((.SUCCESS, GetAddrFromPageIdx c page_idx), s3, [])

/-- Trim of part_002: a range check and nothing else; no state change, no
controller operations. -/
def trim (c : Config) (_s : State) (lba : Nat) : ExecState × List CtrlOp :=
  if IsValidLba c lba = false then (.FAILURE, [])
  else (.SUCCESS, [])

/-- A host-side operation against the FTL. -/
inductive HostOp where
  | read (lba : Nat)
  | write (lba : Nat)
  | trim (lba : Nat)

/-- State evolution under one host operation: ReadTranslate and Trim do not
modify the FTL state in part_002; WriteTranslate may. -/
def step (c : Config) (s : State) : HostOp → State
  | .read _ => s
  | .write lba => (writeTranslate c s lba).2.1
  | .trim _ => s

/-- Specification ghost alongside the state: for each LBA, the address
returned by the most recent successful WriteTranslate of that LBA (none if
no write of it has succeeded).  The state component evolves exactly by
step. -/
def stepG (c : Config) : State × (Nat → Option Address) → HostOp →
    State × (Nat → Option Address)
  | (s, g), .read _ => (s, g)
  | (s, g), .trim _ => (s, g)
  | (s, g), .write lba =>
    let r := writeTranslate c s lba
    (r.2.1, if r.1.1 = .SUCCESS then upd g lba (some r.1.2) else g)

/-- Run a list of host operations from a freshly constructed FTL, tracking
the last-successful-write ghost. -/
def runG (c : Config) (ops : List HostOp) : State × (Nat → Option Address) :=
  ops.foldl (stepG c) (init c, fun _ => none)

/-- Run a list of host operations from a freshly constructed FTL. -/
def run (c : Config) (ops : List HostOp) : State :=
  ops.foldl (step c) (init c)

/-- Well-formed configuration for part_002: at least one page per block, a
nonempty data region, and few enough pages that every page index and LBA
fits a uint16_t strictly below the INVALID_PAGE sentinel (the source
documents maxima 4 * 8 * 2 * 10 blocks of at most 64 pages, i.e. at most
40960 pages). -/
def WF (c : Config) : Prop :=
  0 < c.block_size ∧ num_op_blocks c < num_blocks c ∧ num_pages c ≤ 65535

/-- The next page index the log tip will hand out. -/
def frontier (c : Config) (s : State) : Nat :=
  s.log_block * c.block_size + s.log_page_offset

/-- Inductive invariant of the part_002 FTL, carried alongside the ghost map
g of last-successful-write addresses: the log tip is inside the device and
its offset inside the block, the free list is exactly the blocks after the
tip, out-of-range LBAs are unmapped, the two maps are mutually inverse below
the frontier, and g mirrors lba_page_map. -/
structure Inv (c : Config) (s : State) (g : Nat → Option Address) : Prop where
  off_le : s.log_page_offset ≤ c.block_size
  lb_lt : s.log_block < num_blocks c
  free_eq : s.free_log_blocks = List.range' (s.log_block + 1) (num_blocks c - (s.log_block + 1))
  lpm_hi : ∀ l, largest_lba c < l → s.lba_page_map l = INVALID_PAGE
  lpm : ∀ l, l ≤ largest_lba c → s.lba_page_map l ≠ INVALID_PAGE →
    s.lba_page_map l < frontier c s ∧ s.page_lba_map (s.lba_page_map l) = l
  plm : ∀ p, s.page_lba_map p ≠ INVALID_PAGE →
    p < frontier c s ∧ s.page_lba_map p ≤ largest_lba c ∧
      s.lba_page_map (s.page_lba_map p) = p
  ghost : ∀ l, (s.lba_page_map l = INVALID_PAGE ↔ g l = none) ∧
    ∀ a, g l = some a → a = GetAddrFromPageIdx c (s.lba_page_map l)

/-- The mutual-inverse property of the logical-to-physical and
physical-to-logical maps, including that no two live physical pages carry
the same LBA. -/
def MapsInverse (c : Config) (s : State) : Prop :=
  (∀ l, l ≤ largest_lba c → s.lba_page_map l ≠ INVALID_PAGE →
    s.page_lba_map (s.lba_page_map l) = l) ∧
  (∀ p, s.page_lba_map p ≠ INVALID_PAGE →
    s.page_lba_map p ≤ largest_lba c ∧ s.lba_page_map (s.page_lba_map p) = p) ∧
  (∀ p q, s.page_lba_map p ≠ INVALID_PAGE → s.page_lba_map q ≠ INVALID_PAGE →
    s.page_lba_map p = s.page_lba_map q → p = q)

/-- The behaviour of ReadTranslate against the ghost of the most recent
successful write: it issues no controller operations, fails exactly on
out-of-range or never-successfully-written LBAs, and otherwise returns the
address of the most recent successful write of the LBA. -/
def ReadSpec (c : Config) (s : State) (g : Nat → Option Address) (lba : Nat) : Prop :=
  ((readTranslate c s lba).1.1 = .FAILURE ↔ (largest_lba c < lba ∨ g lba = none)) ∧
  (∀ a, g lba = some a → readTranslate c s lba = ((.SUCCESS, a), [])) ∧
  (readTranslate c s lba).2 = []

end Ckpt1


namespace Ctrl

/-- Controller::AddressToLBA of 746FlashSim.h, with the stride members
page_per_block, page_per_plane, page_per_die, page_per_package expanded to
their constructor values. -/
def AddressToLBA (c : Config) (addr : Address) : Nat :=
  addr.page + addr.block * c.block_size +
    addr.plane * (c.block_size * c.plane_size) +
    addr.die * (c.block_size * c.plane_size * c.die_size) +
    addr.package * (c.block_size * c.plane_size * c.die_size * c.package_size)

/-- Controller::UpdateBlockErasure of 746FlashSim.h.  The block_erasure_map
is maintained lazily: a missing entry is inserted with the full budget
block_erase_count; a value of 0 raises the block-worn-out FATAL error
(modelled as none), otherwise the counter is decremented. -/
def UpdateBlockErasure (block_erase_count : Nat) (m : Nat → Option Nat)
    (block_lba : Nat) : Option (Nat → Option Nat) :=
  let cur := (m block_lba).getD block_erase_count
  if cur = 0 then none
  else some (upd m block_lba (some (cur - 1)))

/-- Iterate UpdateBlockErasure n times on one block, starting from the empty
(lazily initialised) block_erasure_map; none means some iteration raised the
block-worn-out FATAL error. -/
def eraseIter (block_erase_count block_lba : Nat) : Nat → Option (Nat → Option Nat)
  | 0 => some fun _ => none
  | n + 1 =>
    (eraseIter block_erase_count block_lba n).bind
      fun m => UpdateBlockErasure block_erase_count m block_lba

/-- The remaining erase budget a lazily maintained map assigns to a block. -/
def remaining (block_erase_count : Nat) (m : Nat → Option Nat) (block_lba : Nat) : Nat :=
  (m block_lba).getD block_erase_count

/-- The slice of controller state that the ReadLBA delivery path touches:
the physical-to-logical stamp map, the page buffer FIFO and the payload
store (DataStore slots). -/
structure ReadState (Page : Type) where
  physical_logical_map : Nat → Option Nat
  page_buffer : List (Page × Nat)
  store : Nat → Page

/-- The READ case of Controller::ExecuteCommand: if the physical page has no
physical-to-logical binding it is CLEAN and reading raises
ThrowInvalidReadError (none); otherwise the payload is read and pushed on
the page buffer together with the logical LBA stamp. -/
def ExecuteCommandRead {Page : Type} (c : Config) (st : ReadState Page)
    (addr : Address) : Option (ReadState Page) :=
  let physical_lba := AddressToLBA c addr
  match st.physical_logical_map physical_lba with
  | none => none
  | some logical_lba =>
    some { st with page_buffer := st.page_buffer ++ [(st.store physical_lba, logical_lba)] }

/-- Controller::ReadLBA of 746FlashSim.h for an FTL whose ReadTranslate
issues no controller operations (as in both MyFTL variants): call the FTL,
check EnsureStateIsClean (buffer empty, else a FATAL exception, modelled as
none), return FAILURE as-is, otherwise execute READ at the returned address
and deliver the payload of the buffer head, popping it.  The stamped
logical LBA of the popped entry is discarded. -/
def ReadLBA {Page : Type} (c : Config) (ftl : Nat → ExecState × Address)
    (st : ReadState Page) (lba : Nat) : Option (ExecState × Option Page) :=
  let ret := ftl lba
  if st.page_buffer.length ≠ 0 then none
  else if ret.1 = .FAILURE then some (.FAILURE, none)
  else
    match ExecuteCommandRead c st ret.2 with
    | none => none
    | some st1 => some (.SUCCESS, st1.page_buffer.head?.map Prod.fst)

end Ctrl

namespace Final

/-- CalcPhyAddr of src/src/myFTL.cpp: the home (data-page) address of an
LBA. -/
def CalcPhyAddr (c : Config) (lba : Nat) : Address :=
  { package := lba / (c.package_size * c.die_size * c.plane_size * c.block_size)
    die := (lba / (c.die_size * c.plane_size * c.block_size)) % c.package_size
    plane := (lba / (c.plane_size * c.block_size)) % c.die_size
    block := (lba / c.block_size) % c.plane_size
    page := lba % c.block_size }

/-- GetPageIdx of src/src/myFTL.cpp. -/
def GetPageIdx (c : Config) (addr : Address) : Nat :=
  addr.package * c.package_size * c.die_size * c.plane_size * c.block_size +
    addr.die * c.die_size * c.plane_size * c.block_size +
    addr.plane * c.plane_size * c.block_size +
    addr.block * c.block_size +
    addr.page

/-- GetBlockIdx of src/src/myFTL.cpp. -/
def GetBlockIdx (c : Config) (addr : Address) : Nat :=
  addr.package * c.package_size * c.die_size * c.plane_size +
    addr.die * c.die_size * c.plane_size +
    addr.plane * c.plane_size +
    addr.block

/-- GetAddrFromBlockIdx of src/src/myFTL.cpp. -/
def GetAddrFromBlockIdx (c : Config) (block_idx : Nat) : Address :=
  { package := block_idx / (c.package_size * c.die_size * c.plane_size)
    die := (block_idx / (c.die_size * c.plane_size)) % c.package_size
    plane := (block_idx / c.plane_size) % c.die_size
    block := block_idx % c.plane_size
    page := 0 }

/-- GetAddrFromBlockPageIdx of src/src/myFTL.cpp. -/
def GetAddrFromBlockPageIdx (c : Config) (block_idx page_idx : Nat) : Address :=
  { GetAddrFromBlockIdx c block_idx with page := page_idx }

/-- The member state of MyFTL in src/src/myFTL.cpp together with the
blocks_queue of RoundRobinPolicy (GC policy index 0).  The
std::unordered_map members become total maps (data_logblock_map with none
for absent keys; logblock_lbas_map with the empty vector that operator[]
would default-construct). -/
structure State where
  free_log_blocks : List Nat
  data_logblock_map : Nat → Option Nat
  pages_valid : Nat → Bool
  erase_counts : Nat → Nat
  logblock_lbas_map : Nat → List Nat
  cleanblock_idxs : List Nat
  curr_cleanblock_idx : Nat
  blocks_queue : List Nat

/-- The constructor of src/src/myFTL.cpp: the over-provisioned blocks (the
last num_op_blocks block indexes, in ascending order) seed the free list,
then the first num_op_blocks / 2 of them are moved off the front of the
free list to become cleaning blocks. -/
def init (c : Config) : State :=
  let op_blocks := List.range' (num_blocks c - num_op_blocks c) (num_op_blocks c)
  { free_log_blocks := op_blocks.drop (num_op_blocks c / 2)
    data_logblock_map := fun _ => none
    pages_valid := fun _ => false
    erase_counts := fun _ => 0
    logblock_lbas_map := fun _ => []
    cleanblock_idxs := op_blocks.take (num_op_blocks c / 2)
    curr_cleanblock_idx := 0
    blocks_queue := [] }

/-- Phase one of MyFTL::Clean: walk the LBAs recorded in the log block from
the most recent entry backwards (the list argument is the enumerated LBA
vector reversed); for each data-block page offset not yet copied, issue a
READ of the log page and a WRITE of the cleaning-block page. -/
def copyLogPages (c : Config) (logblock_idx cleanblock_idx : Nat) :
    List (Nat × Nat) → (Nat → Bool) → (Nat → Bool) × List CtrlOp
  | [], live_copied => (live_copied, [])
  | (i, lba) :: rest, live_copied =>
    let pg := (CalcPhyAddr c lba).page
    if live_copied pg then copyLogPages c logblock_idx cleanblock_idx rest live_copied
    else
      let r := copyLogPages c logblock_idx cleanblock_idx rest (upd live_copied pg true)
      (r.1,
        (OpCode.READ, GetAddrFromBlockPageIdx c logblock_idx i) ::
        (OpCode.WRITE, GetAddrFromBlockPageIdx c cleanblock_idx pg) :: r.2)

/-- Phase two of MyFTL::Clean: for every page offset of the block, copy it
from the data block to the cleaning block when it was not already copied
and pages_valid holds at the raw offset (the source indexes pages_valid
with the loop counter i itself). -/
def copyDataPages (c : Config) (datablock_idx cleanblock_idx : Nat)
    (pages_valid : Nat → Bool) :
    List Nat → (Nat → Bool) → (Nat → Bool) × List CtrlOp
  | [], live_copied => (live_copied, [])
  | i :: rest, live_copied =>
    if live_copied i then copyDataPages c datablock_idx cleanblock_idx pages_valid rest live_copied
    else if pages_valid i = false then
      copyDataPages c datablock_idx cleanblock_idx pages_valid rest live_copied
    else
      let r := copyDataPages c datablock_idx cleanblock_idx pages_valid rest (upd live_copied i true)
      (r.1,
        (OpCode.READ, GetAddrFromBlockPageIdx c datablock_idx i) ::
        (OpCode.WRITE, GetAddrFromBlockPageIdx c cleanblock_idx i) :: r.2)

/-- Phase three of MyFTL::Clean: copy every live page back from the cleaning
block to the data block. -/
def copyBackPages (c : Config) (cleanblock_idx datablock_idx : Nat)
    (live_copied : Nat → Bool) : List Nat → List CtrlOp
  | [] => []
  | i :: rest =>
    if live_copied i then
      (OpCode.READ, GetAddrFromBlockPageIdx c cleanblock_idx i) ::
      (OpCode.WRITE, GetAddrFromBlockPageIdx c datablock_idx i) ::
      copyBackPages c cleanblock_idx datablock_idx live_copied rest
    else copyBackPages c cleanblock_idx datablock_idx live_copied rest

/-- MyFTL::Clean.  Returns (done, new state, issued controller operations).
Reading data_logblock_map with operator[] value-initialises a missing entry
to 0, hence the getD 0 together with the re-insertion; the cleaning block is
picked from the rotation vector and the rotation index advances before the
erase-budget check, so an aborted clean still advances the rotation.  On
abort nothing has been issued. -/
def clean (c : Config) (s : State) (datablock_idx : Nat) :
    Bool × State × List CtrlOp :=
  let logblock_idx := (s.data_logblock_map datablock_idx).getD 0
  let s := { s with data_logblock_map := upd s.data_logblock_map datablock_idx (some logblock_idx) }
  let cleanblock_idx := s.cleanblock_idxs.getD s.curr_cleanblock_idx 0
  let s := { s with curr_cleanblock_idx := (s.curr_cleanblock_idx + 1) % s.cleanblock_idxs.length }
  if c.block_erase_count ≤ s.erase_counts datablock_idx ∨
      c.block_erase_count ≤ s.erase_counts logblock_idx ∨
      c.block_erase_count ≤ s.erase_counts cleanblock_idx then
    (false, s, [])
  else
    let lbas := s.logblock_lbas_map logblock_idx
    let r1 := copyLogPages c logblock_idx cleanblock_idx lbas.enum.reverse (fun _ => false)
    let r2 := copyDataPages c datablock_idx cleanblock_idx s.pages_valid
      (List.range c.block_size) r1.1
    let s := { s with erase_counts := upd s.erase_counts datablock_idx (s.erase_counts datablock_idx + 1) }
    let s := { s with erase_counts := upd s.erase_counts logblock_idx (s.erase_counts logblock_idx + 1) }
    let s := { s with
               free_log_blocks := s.free_log_blocks ++ [logblock_idx]
               data_logblock_map := upd s.data_logblock_map datablock_idx none
               logblock_lbas_map := upd s.logblock_lbas_map logblock_idx [] }
    let ops3 := copyBackPages c cleanblock_idx datablock_idx r2.1 (List.range c.block_size)
    let s := { s with erase_counts := upd s.erase_counts cleanblock_idx (s.erase_counts cleanblock_idx + 1) }
    (true, s,
      r1.2 ++ r2.2 ++
      [(OpCode.ERASE, GetAddrFromBlockIdx c datablock_idx),
       (OpCode.ERASE, GetAddrFromBlockIdx c logblock_idx)] ++
      ops3 ++
      [(OpCode.ERASE, GetAddrFromBlockIdx c cleanblock_idx)])

/-- The outcome of MyFTL::WriteTranslate.  stuck marks the undefined
behaviour of calling front() on the empty std::list in
RoundRobinPolicy::SelectBlockToClean (and exhaustion of the recursion fuel,
which never happens for the fuel used in the concrete runs below). -/
inductive WtOutcome where
  | success (addr : Address)
  | failure
  | stuck
deriving DecidableEq, Repr

/-- Is the outcome a successful translation. -/
def isSuccess : WtOutcome → Bool
  | .success _ => true
  | _ => false

/-- MyFTL::WriteTranslate with RoundRobinPolicy, with explicit recursion
fuel for the retry after a successful Clean (the source recursion has depth
at most two from reachable states).  LogBlockAllocatedHandler appends the
data block to the policy queue; DataBlockWrittenHandler is a no-op for
round-robin.  The allocation of a log block when none is mapped is factored
through an Option so that the subsequent full-log check and append are
written once, as in the source fall-through. -/
def writeTranslate (c : Config) : Nat → State → Nat → WtOutcome × State × List CtrlOp
  | 0, s, _ => (.stuck, s, [])
  | fuel + 1, s, lba =>
    if largest_lba c < lba then (.failure, s, [])
    else
      let datapage_addr := CalcPhyAddr c lba
      let datapage_idx := GetPageIdx c datapage_addr
      let datablock_idx := GetBlockIdx c datapage_addr
      if s.pages_valid datapage_idx = false then
        (.success datapage_addr, { s with pages_valid := upd s.pages_valid datapage_idx true }, [])
      else
        let alloc : Option State :=
          match s.data_logblock_map datablock_idx with
          | some _ => some s
          | none =>
            if s.free_log_blocks = [] then none
            else
              some { s with
                     data_logblock_map :=
                       upd s.data_logblock_map datablock_idx (some (s.free_log_blocks.headD 0))
                     free_log_blocks := s.free_log_blocks.tail
                     blocks_queue := s.blocks_queue ++ [datablock_idx] }
        match alloc with
        | none =>
          match s.blocks_queue with
          | [] => (.stuck, s, [])
          | victim :: queue_rest =>
            let r := clean c { s with blocks_queue := queue_rest } victim
            if r.1 then
              let r2 := writeTranslate c fuel r.2.1 lba
              (r2.1, r2.2.1, r.2.2 ++ r2.2.2)
            else (.failure, r.2.1, r.2.2)
        | some s1 =>
          let logblock_idx := (s1.data_logblock_map datablock_idx).getD 0
          if (s1.logblock_lbas_map logblock_idx).length = c.block_size then
            let r := clean c s1 datablock_idx
            if r.1 then
              let r2 := writeTranslate c fuel r.2.1 lba
              (r2.1, r2.2.1, r.2.2 ++ r2.2.2)
            else (.failure, r.2.1, r.2.2)
          else
            let newlist := s1.logblock_lbas_map logblock_idx ++ [lba]
            (.success (GetAddrFromBlockPageIdx c logblock_idx (newlist.length - 1)),
              { s1 with logblock_lbas_map := upd s1.logblock_lbas_map logblock_idx newlist },
              [])

/-- The index scan of MyFTL::ReadTranslate: the position of the most recent
occurrence of the LBA in the log-block LBA vector (the source walks the
vector backwards). -/
def findLastIdx (lba : Nat) (l : List Nat) : Option Nat :=
  (l.enum.reverse.find? fun p => p.2 == lba).map Prod.fst

/-- MyFTL::ReadTranslate of src/src/myFTL.cpp; the callback is cast to void,
so the issued-operation list is empty. -/
def readTranslate (c : Config) (s : State) (lba : Nat) :
    (ExecState × Address) × List CtrlOp :=
  if largest_lba c < lba then ((.FAILURE, addr0), [])
  else
    let datapage_addr := CalcPhyAddr c lba
    let datapage_idx := GetPageIdx c datapage_addr
    if s.pages_valid datapage_idx = false then ((.FAILURE, addr0), [])
    else
      let datablock_idx := GetBlockIdx c datapage_addr
      match s.data_logblock_map datablock_idx with
      | none => ((.SUCCESS, datapage_addr), [])
      | some logblock_idx =>
        match findLastIdx lba (s.logblock_lbas_map logblock_idx) with
        | some i => ((.SUCCESS, GetAddrFromBlockPageIdx c logblock_idx i), [])
        | none => ((.SUCCESS, datapage_addr), [])

/-- MyFTL::Trim of src/src/myFTL.cpp: unconditionally SUCCESS, no state
change, no controller operations. -/
def trim (_c : Config) (_s : State) (_lba : Nat) : ExecState × List CtrlOp :=
  (.SUCCESS, [])

/-- Run a sequence of host writes, collecting outcomes and all issued
controller operations. -/
def runWrites (c : Config) (fuel : Nat) : State → List Nat → State × List WtOutcome × List CtrlOp
  | s, [] => (s, [], [])
  | s, lba :: rest =>
    let r := writeTranslate c fuel s lba
    let rr := runWrites c fuel r.2.1 rest
    (rr.1, r.1 :: rr.2.1, r.2.2 ++ rr.2.2)

/-- Number of ERASE operations in an issued-operation list. -/
def countErase (ops : List CtrlOp) : Nat :=
  ops.countP fun o => o.1 == OpCode.ERASE

/-- Events seen by the controller page buffer during one host write:
the operations issued by WriteTranslate through the callback, and then, on
SUCCESS, the push of the host payload performed by Controller::WriteLBA
followed by the final WRITE at the returned address. -/
inductive CtrlEvt where
  | push
  | op (o : CtrlOp)

/-- The controller-event sequence of one host write (Controller::WriteLBA
composed with MyFTL::WriteTranslate). -/
def hostWriteEvents (c : Config) (fuel : Nat) (s : State) (lba : Nat) : List CtrlEvt :=
  let r := writeTranslate c fuel s lba
  r.2.2.map .op ++
    match r.1 with
    | .success a => [.push, .op (OpCode.WRITE, a)]
    | _ => []

/-- Page-buffer occupancy simulation: READ and push enqueue one entry; WRITE
dequeues the head and is the event whose underflow the controller does not
check (none when the buffer is empty); ERASE requires an empty buffer
(EnsureStateIsClean before erasing). -/
def evtRun : Nat → List CtrlEvt → Option Nat
  | n, [] => some n
  | n, .push :: rest => evtRun (n + 1) rest
  | n, .op (OpCode.READ, _) :: rest => evtRun (n + 1) rest
  | n, .op (OpCode.WRITE, _) :: rest =>
    match n with
    | 0 => none
    | m + 1 => evtRun m rest
  | n, .op (OpCode.ERASE, _) :: rest =>
    match n with
    | 0 => evtRun 0 rest
    | _ + 1 => none

/-- Same simulation over a raw operation list. -/
def opRun : Nat → List CtrlOp → Option Nat
  | n, [] => some n
  | n, (OpCode.READ, _) :: rest => opRun (n + 1) rest
  | n, (OpCode.WRITE, _) :: rest =>
    match n with
    | 0 => none
    | m + 1 => opRun m rest
  | n, (OpCode.ERASE, _) :: rest =>
    match n with
    | 0 => opRun 0 rest
    | _ + 1 => none

end Final

/-- All five components of a page address are within the configured
geometry. -/
def PageAddrInBounds (c : Config) (a : Address) : Prop :=
  a.package < c.ssd_size ∧ a.die < c.package_size ∧ a.plane < c.die_size ∧
    a.block < c.plane_size ∧ a.page < c.block_size

/-- The four block-level components of an address are within the configured
geometry. -/
def BlockAddrInBounds (c : Config) (a : Address) : Prop :=
  a.package < c.ssd_size ∧ a.die < c.package_size ∧ a.plane < c.die_size ∧
    a.block < c.plane_size

/-- Positive geometry whose components fit the uint8_t and uint16_t fields
of class Address, and with at most 65536 pages in total so that every flat
page index fits the pg_size_t (uint16_t) return and parameter types of the
part_002 codec: on such geometries the uint16 wrap-arounds of the source are
vacuous and the Nat model of the codec is exact.  The documented maxima of
the sources (4 * 8 * 2 * 10 blocks of at most 64 pages, i.e. at most 40960
pages) satisfy these bounds. -/
def GeomWF (c : Config) : Prop :=
  0 < c.ssd_size ∧ 0 < c.package_size ∧ 0 < c.die_size ∧ 0 < c.plane_size ∧
    0 < c.block_size ∧ c.ssd_size ≤ 256 ∧ c.package_size ≤ 256 ∧
    c.die_size ≤ 65536 ∧ c.plane_size ≤ 65536 ∧ c.block_size ≤ 65536 ∧
    num_pages c ≤ 65536

/-- Exact round-trip bijectivity of the page codec (part_002
GetPageIdxFromAddr / GetAddrFromPageIdx, the same formulas as GetPageIdx /
CalcPhyAddr in myFTL.cpp) on its domain, and of the parallel block-index
codec (GetBlockIdx / GetAddrFromBlockIdx of myFTL.cpp). -/
def CodecBijective (c : Config) : Prop :=
  (∀ P, P < num_pages c →
    Ckpt1.GetPageIdxFromAddr c (Ckpt1.GetAddrFromPageIdx c P) = P ∧
      PageAddrInBounds c (Ckpt1.GetAddrFromPageIdx c P)) ∧
  (∀ a, PageAddrInBounds c a →
    Ckpt1.GetPageIdxFromAddr c a < num_pages c ∧
      Ckpt1.GetAddrFromPageIdx c (Ckpt1.GetPageIdxFromAddr c a) = a) ∧
  (∀ b, b < num_blocks c →
    Final.GetBlockIdx c (Final.GetAddrFromBlockIdx c b) = b ∧
      BlockAddrInBounds c (Final.GetAddrFromBlockIdx c b)) ∧
  (∀ a, BlockAddrInBounds c a → a.page = 0 →
    Final.GetBlockIdx c a < num_blocks c ∧
      Final.GetAddrFromBlockIdx c (Final.GetBlockIdx c a) = a)

/-- A tiny two-block geometry (one data block, one over-provisioned block,
two pages per block) used to instantiate the general theorems. -/
def cfgA : Config := ⟨1, 1, 1, 2, 2, 5, 50⟩

/-- A host workload on cfgA exercising first writes, overwrites (forcing a
log-tip rollover), trims and reads. -/
def opsA : List Ckpt1.HostOp :=
  [.write 0, .write 1, .write 0, .trim 1, .read 0, .write 1, .write 0]

/-- The geometry of scenario S2: (4, 8, 2, 10, 16) with 5 percent
over-provisioning. -/
def cfgS2 : Config := ⟨4, 8, 2, 10, 16, 10, 5⟩

/-- S2, first write: LBA 0 on a fresh FTL. -/
def s2_w0 := Final.writeTranslate cfgS2 2 (Final.init cfgS2) 0

/-- S2, second write: the largest in-range LBA, num_data_blocks * 16 - 1. -/
def s2_w1 := Final.writeTranslate cfgS2 2 s2_w0.2.1 9727

/-- S2, third write: num_raw_blocks * 16 - 1 = 10239, out of range. -/
def s2_w2 := Final.writeTranslate cfgS2 2 s2_w1.2.1 10239

/-- The geometry of scenario S1 (BLOCK_SIZE = 16), with a generous erase
budget. -/
def cfgS1 : Config := ⟨4, 8, 2, 10, 16, 100, 5⟩

/-- S1: seventeen consecutive host writes of LBA 0 on a fresh FTL. -/
def s1_run17 := Final.runWrites cfgS1 4 (Final.init cfgS1) (List.replicate 17 0)

/-- S1 continued: the eighteenth write of LBA 0. -/
def s1_w18 := Final.writeTranslate cfgS1 4 s1_run17.1 0

/-- A six-block geometry with erase budget 1: blocks 0..2 hold data, block 3
is the cleaning block, blocks 4 and 5 are free log blocks. -/
def cfgGC : Config := ⟨1, 1, 1, 6, 2, 1, 50⟩

/-- Fill three data blocks and overwrite each once: the final write runs one
successful garbage collection, wearing out blocks 0, 3 and 4. -/
def gc_setup := Final.runWrites cfgGC 4 (Final.init cfgGC) [0, 0, 2, 2, 4, 4]

/-- The next write of LBA 0 needs garbage collection; the round-robin victim
is block 1, and Clean aborts because the cleaning block has no erases
left. -/
def gc_abort := Final.writeTranslate cfgGC 4 gc_setup.1 0

/-- First retry of the same write: the victim queue yields block 2 and Clean
aborts again. -/
def gc_retry1 := Final.writeTranslate cfgGC 4 gc_abort.2.1 0

/-- Second retry of the same write: the victim queue is now empty. -/
def gc_retry2 := Final.writeTranslate cfgGC 4 gc_retry1.2.1 0

/-- A controller state whose page 0 carries payload 99 stamped with logical
LBA 7, with an empty page buffer. -/
def c6_state : Ctrl.ReadState Nat :=
  { physical_logical_map := fun p => if p = 0 then some 7 else none
    page_buffer := []
    store := fun _ => 99 }

/-- An FTL translation that maps every LBA to physical address 0. -/
def c6_ftl : Nat → ExecState × Address := fun _ => (.SUCCESS, addr0)

/-
  Theorems.  First the generic map-update and mixed-radix lemmas, then the
  per-claim developments.
-/

theorem upd_eq {α : Type} (f : Nat → α) (k : Nat) (v : α) : upd f k v k = v := by
  simp [upd]

theorem upd_ne {α : Type} (f : Nat → α) (k : Nat) (v : α) {i : Nat} (h : i ≠ k) :
    upd f k v i = f i := by
  simp [upd, h]

theorem nested_div2 (B pl x : Nat) : x / (pl * B) = x / B / pl := by
  rw [Nat.div_div_eq_div_mul, mul_comm B pl]

theorem nested_div3 (B pl d x : Nat) : x / (d * pl * B) = x / B / pl / d := by
  rw [Nat.div_div_eq_div_mul, Nat.div_div_eq_div_mul,
    (by ring : B * (pl * d) = d * pl * B)]

theorem nested_div4 (B pl d pk x : Nat) : x / (pk * d * pl * B) = x / B / pl / d / pk := by
  rw [Nat.div_div_eq_div_mul, Nat.div_div_eq_div_mul, Nat.div_div_eq_div_mul,
    (by ring : B * (pl * (d * pk)) = pk * d * pl * B)]

theorem radix_digits (q r m : Nat) (hr : r < m) :
    (q * m + r) / m = q ∧ (q * m + r) % m = r := by
  constructor
  · rw [mul_comm, Nat.mul_add_div (by omega)]
    simp [Nat.div_eq_of_lt hr]
  · rw [mul_comm, Nat.mul_add_mod, Nat.mod_eq_of_lt hr]

theorem radix5_enc_dec (B pl d pk x : Nat) :
    x / (pk * d * pl * B) * pk * d * pl * B
      + x / (d * pl * B) % pk * d * pl * B
      + x / (pl * B) % d * pl * B
      + x / B % pl * B
      + x % B = x := by
  have h1 : x / B * B + x % B = x := Nat.div_add_mod' x B
  have h2 : x / B / pl * pl + x / B % pl = x / B := Nat.div_add_mod' _ _
  have h3 : x / B / pl / d * d + x / B / pl % d = x / B / pl := Nat.div_add_mod' _ _
  have h4 : x / B / pl / d / pk * pk + x / B / pl / d % pk = x / B / pl / d :=
    Nat.div_add_mod' _ _
  rw [nested_div4 B pl d pk x, nested_div3 B pl d x, nested_div2 B pl x]
  calc x / B / pl / d / pk * pk * d * pl * B
        + x / B / pl / d % pk * d * pl * B
        + x / B / pl % d * pl * B
        + x / B % pl * B + x % B
      = (x / B / pl / d / pk * pk + x / B / pl / d % pk) * d * pl * B
        + (x / B / pl % d * pl * B + (x / B % pl * B + x % B)) := by ring
    _ = x / B / pl / d * d * pl * B
        + (x / B / pl % d * pl * B + (x / B % pl * B + x % B)) := by rw [h4]
    _ = (x / B / pl / d * d + x / B / pl % d) * pl * B
        + (x / B % pl * B + x % B) := by ring
    _ = x / B / pl * pl * B + (x / B % pl * B + x % B) := by rw [h3]
    _ = (x / B / pl * pl + x / B % pl) * B + x % B := by ring
    _ = x / B * B + x % B := by rw [h2]
    _ = x := h1

theorem radix4_enc_dec (pl d pk x : Nat) :
    x / (pk * d * pl) * pk * d * pl
      + x / (d * pl) % pk * d * pl
      + x / pl % d * pl
      + x % pl = x := by
  have h1 : x / pl * pl + x % pl = x := Nat.div_add_mod' x pl
  have h2 : x / pl / d * d + x / pl % d = x / pl := Nat.div_add_mod' _ _
  have h3 : x / pl / d / pk * pk + x / pl / d % pk = x / pl / d := Nat.div_add_mod' _ _
  rw [nested_div3 pl d pk x, nested_div2 pl d x]
  calc x / pl / d / pk * pk * d * pl
        + x / pl / d % pk * d * pl
        + x / pl % d * pl + x % pl
      = (x / pl / d / pk * pk + x / pl / d % pk) * d * pl
        + (x / pl % d * pl + x % pl) := by ring
    _ = x / pl / d * d * pl + (x / pl % d * pl + x % pl) := by rw [h3]
    _ = (x / pl / d * d + x / pl % d) * pl + x % pl := by ring
    _ = x / pl * pl + x % pl := by rw [h2]
    _ = x := h1

theorem radix_step_lt (x y n r : Nat) (hx : x < y) (hr : r < n) :
    x * n + r < y * n := by
  calc x * n + r < x * n + n := by omega
    _ = (x + 1) * n := by ring
    _ ≤ y * n := Nat.mul_le_mul_right n hx

theorem enc_horner (c : Config) (a : Address) :
    Ckpt1.GetPageIdxFromAddr c a =
      (((a.package * c.package_size + a.die) * c.die_size + a.plane) * c.plane_size
          + a.block) * c.block_size + a.page := by
  unfold Ckpt1.GetPageIdxFromAddr
  ring

theorem enc_horner_block (c : Config) (a : Address) :
    Final.GetBlockIdx c a =
      ((a.package * c.package_size + a.die) * c.die_size + a.plane) * c.plane_size
        + a.block := by
  unfold Final.GetBlockIdx
  ring

/-- Claim C9: for every flat page index P below num_pages, decoding and
re-encoding round-trips to P with all components inside the configured
geometry; conversely encoding an in-bounds address lands below num_pages
and decodes back to the same tuple; and the parallel block-index codec
round-trips in the same way on block indexes below num_blocks. -/
theorem c9_codec_roundtrip (c : Config) (h : GeomWF c) : CodecBijective c := by
  obtain ⟨hssd, hpk, hd, hpl, hB, _⟩ := h
  refine ⟨?_, ?_, ?_, ?_⟩
  · intro P hP
    constructor
    · rw [show Ckpt1.GetPageIdxFromAddr c (Ckpt1.GetAddrFromPageIdx c P) =
          P / (c.package_size * c.die_size * c.plane_size * c.block_size)
              * c.package_size * c.die_size * c.plane_size * c.block_size
            + P / (c.die_size * c.plane_size * c.block_size) % c.package_size
              * c.die_size * c.plane_size * c.block_size
            + P / (c.plane_size * c.block_size) % c.die_size
              * c.plane_size * c.block_size
            + P / c.block_size % c.plane_size * c.block_size
            + P % c.block_size from rfl]
      exact radix5_enc_dec c.block_size c.plane_size c.die_size c.package_size P
    · refine ⟨?_, Nat.mod_lt _ hpk, Nat.mod_lt _ hd, Nat.mod_lt _ hpl, Nat.mod_lt _ hB⟩
      have hpos : 0 < c.package_size * c.die_size * c.plane_size * c.block_size := by
        positivity
      show P / (c.package_size * c.die_size * c.plane_size * c.block_size) < c.ssd_size
      rw [Nat.div_lt_iff_lt_mul hpos]
      calc P < num_pages c := hP
        _ = c.ssd_size * (c.package_size * c.die_size * c.plane_size * c.block_size) := by
            unfold num_pages num_blocks
            ring
  · intro a ha
    obtain ⟨hapk, had, hapl, hab, hapg⟩ := ha
    constructor
    · rw [enc_horner]
      have t1 : a.package * c.package_size + a.die < c.ssd_size * c.package_size :=
        radix_step_lt _ _ _ _ hapk had
      have t2 := radix_step_lt _ _ _ _ t1 hapl
      have t3 := radix_step_lt _ _ _ _ t2 hab
      have t4 := radix_step_lt _ _ _ _ t3 hapg
      calc (((a.package * c.package_size + a.die) * c.die_size + a.plane) * c.plane_size
              + a.block) * c.block_size + a.page
          < c.ssd_size * c.package_size * c.die_size * c.plane_size * c.block_size := t4
        _ = num_pages c := by
            unfold num_pages num_blocks
            ring
    · obtain ⟨apk, ad, apl, ab, apg⟩ := a
      simp only at hapk had hapl hab hapg
      rw [enc_horner]
      simp only
      set Z := apk * c.package_size + ad with hZ
      set Y := Z * c.die_size + apl with hY
      set X := Y * c.plane_size + ab with hX
      have d0 := radix_digits X apg c.block_size hapg
      have d1 := radix_digits Y ab c.plane_size hab
      have d2 := radix_digits Z apl c.die_size hapl
      have d3 := radix_digits apk ad c.package_size had
      unfold Ckpt1.GetAddrFromPageIdx
      simp only [Address.mk.injEq]
      refine ⟨?_, ?_, ?_, ?_, ?_⟩
      · rw [nested_div4, d0.1, d1.1, d2.1, d3.1]
      · rw [nested_div3, d0.1, d1.1, d2.1, d3.2]
      · rw [nested_div2, d0.1, d1.1, d2.2]
      · rw [d0.1, d1.2]
      · exact d0.2
  · intro b hb
    constructor
    · rw [show Final.GetBlockIdx c (Final.GetAddrFromBlockIdx c b) =
          b / (c.package_size * c.die_size * c.plane_size)
              * c.package_size * c.die_size * c.plane_size
            + b / (c.die_size * c.plane_size) % c.package_size
              * c.die_size * c.plane_size
            + b / c.plane_size % c.die_size * c.plane_size
            + b % c.plane_size from rfl]
      exact radix4_enc_dec c.plane_size c.die_size c.package_size b
    · refine ⟨?_, Nat.mod_lt _ hpk, Nat.mod_lt _ hd, Nat.mod_lt _ hpl⟩
      have hpos : 0 < c.package_size * c.die_size * c.plane_size := by positivity
      show b / (c.package_size * c.die_size * c.plane_size) < c.ssd_size
      rw [Nat.div_lt_iff_lt_mul hpos]
      calc b < num_blocks c := hb
        _ = c.ssd_size * (c.package_size * c.die_size * c.plane_size) := by
            unfold num_blocks
            ring
  · intro a ha hpg0
    obtain ⟨hapk, had, hapl, hab⟩ := ha
    constructor
    · rw [enc_horner_block]
      have t1 : a.package * c.package_size + a.die < c.ssd_size * c.package_size :=
        radix_step_lt _ _ _ _ hapk had
      have t2 := radix_step_lt _ _ _ _ t1 hapl
      have t3 := radix_step_lt _ _ _ _ t2 hab
      calc ((a.package * c.package_size + a.die) * c.die_size + a.plane) * c.plane_size
              + a.block
          < c.ssd_size * c.package_size * c.die_size * c.plane_size := t3
        _ = num_blocks c := by
            unfold num_blocks
            ring
    · obtain ⟨apk, ad, apl, ab, apg⟩ := a
      simp only at hapk had hapl hab hpg0
      subst hpg0
      rw [enc_horner_block]
      simp only
      set Z := apk * c.package_size + ad with hZ
      set Y := Z * c.die_size + apl with hY
      have d1 := radix_digits Y ab c.plane_size hab
      have d2 := radix_digits Z apl c.die_size hapl
      have d3 := radix_digits apk ad c.package_size had
      unfold Final.GetAddrFromBlockIdx
      simp only [Address.mk.injEq]
      refine ⟨?_, ?_, ?_, ?_, trivial⟩
      · rw [nested_div3, d1.1, d2.1, d3.1]
      · rw [nested_div2, d1.1, d2.1, d3.2]
      · rw [d1.1, d2.2]
      · exact d1.2

/-- Claim C9 witness: the codec is bijective at the S2 geometry
(4, 8, 2, 10, 16). -/
theorem c9_codec_roundtrip_witness : CodecBijective cfgS2 :=
  c9_codec_roundtrip cfgS2 (by unfold GeomWF; decide)

theorem WF_largest_lt (c : Config) (h : Ckpt1.WF c) : largest_lba c < num_pages c := by
  obtain ⟨hB, hop, _⟩ := h
  unfold largest_lba num_pages
  have h2 : (num_blocks c - num_op_blocks c) * c.block_size ≤ num_blocks c * c.block_size :=
    Nat.mul_le_mul_right _ (by omega)
  have h3 : 1 * c.block_size ≤ (num_blocks c - num_op_blocks c) * c.block_size :=
    Nat.mul_le_mul_right _ (by omega)
  rw [one_mul] at h3
  set X := (num_blocks c - num_op_blocks c) * c.block_size
  set Y := num_blocks c * c.block_size
  omega

theorem frontier_lt_np (c : Config) (lb off : Nat) (hlb : lb < num_blocks c)
    (hoff : off < c.block_size) : lb * c.block_size + off < num_pages c := by
  calc lb * c.block_size + off < lb * c.block_size + c.block_size := by omega
    _ = (lb + 1) * c.block_size := by ring
    _ ≤ num_blocks c * c.block_size := Nat.mul_le_mul_right _ hlb
    _ = num_pages c := rfl

theorem inv_append (c : Config) (hWF : Ckpt1.WF c) (t : Ckpt1.State)
    (g : Nat → Option Address) (I : Ckpt1.Inv c t g) (lba : Nat)
    (hlba : lba ≤ largest_lba c) (hoff : t.log_page_offset < c.block_size)
    (plm2 : Nat → Nat)
    (hplm2 : plm2 = if t.lba_page_map lba = Ckpt1.INVALID_PAGE then t.page_lba_map
      else upd t.page_lba_map (t.lba_page_map lba) Ckpt1.INVALID_PAGE) :
    Ckpt1.Inv c
      { lba_page_map := upd t.lba_page_map lba
          ((t.log_block * c.block_size + t.log_page_offset) % 65536)
        page_lba_map := upd plm2
          ((t.log_block * c.block_size + t.log_page_offset) % 65536) (lba % 65536)
        free_log_blocks := t.free_log_blocks
        used_log_blocks := t.used_log_blocks
        log_block := t.log_block
        log_page_offset := t.log_page_offset + 1 }
      (upd g lba (some (Ckpt1.GetAddrFromPageIdx c
        ((t.log_block * c.block_size + t.log_page_offset) % 65536)))) := by
  have hNP : num_pages c ≤ 65535 := hWF.2.2
  have hLlt : largest_lba c < num_pages c := WF_largest_lt c hWF
  have hFlt : t.log_block * c.block_size + t.log_page_offset < num_pages c :=
    frontier_lt_np c _ _ I.lb_lt hoff
  have hFmod : (t.log_block * c.block_size + t.log_page_offset) % 65536
      = t.log_block * c.block_size + t.log_page_offset := Nat.mod_eq_of_lt (by omega)
  have hlbamod : lba % 65536 = lba := Nat.mod_eq_of_lt (by omega)
  rw [hFmod, hlbamod]
  set F := t.log_block * c.block_size + t.log_page_offset with hF
  have hFne : F ≠ Ckpt1.INVALID_PAGE := by unfold Ckpt1.INVALID_PAGE; omega
  have hlbane : lba ≠ Ckpt1.INVALID_PAGE := by unfold Ckpt1.INVALID_PAGE; omega
  have hfrt : Ckpt1.frontier c t = F := by
    dsimp only [Ckpt1.frontier]
  refine
    { off_le := ?_
      lb_lt := ?_
      free_eq := ?_
      lpm_hi := ?_
      lpm := ?_
      plm := ?_
      ghost := ?_ }
  · show t.log_page_offset + 1 ≤ c.block_size
    omega
  · exact I.lb_lt
  · exact I.free_eq
  · intro l hl
    show upd t.lba_page_map lba F l = Ckpt1.INVALID_PAGE
    rw [upd_ne _ _ _ (by omega : l ≠ lba)]
    exact I.lpm_hi l hl
  · intro l hl hne
    dsimp only [Ckpt1.frontier] at hne ⊢
    by_cases hcase : l = lba
    · subst hcase
      simp only [upd_eq]
      exact ⟨by omega, trivial⟩
    · rw [upd_ne _ _ _ hcase] at hne ⊢
      obtain ⟨hlt, hback⟩ := I.lpm l hl hne
      rw [hfrt] at hlt
      refine ⟨by omega, ?_⟩
      rw [upd_ne _ _ _ (by omega : t.lba_page_map l ≠ F)]
      by_cases hprev : t.lba_page_map lba = Ckpt1.INVALID_PAGE
      · rw [hplm2, if_pos hprev]
        exact hback
      · rw [hplm2, if_neg hprev]
        have hnep : t.lba_page_map l ≠ t.lba_page_map lba := by
          intro he
          obtain ⟨_, hb2⟩ := I.lpm lba hlba hprev
          rw [he] at hback
          exact hcase (hback.symm.trans hb2)
        rw [upd_ne _ _ _ hnep]
        exact hback
  · intro p hp
    dsimp only [Ckpt1.frontier] at hp ⊢
    by_cases hpF : p = F
    · subst hpF
      simp only [upd_eq]
      exact ⟨by omega, hlba, trivial⟩
    · rw [upd_ne _ _ _ hpF] at hp ⊢
      by_cases hprev : t.lba_page_map lba = Ckpt1.INVALID_PAGE
      · rw [hplm2, if_pos hprev] at hp ⊢
        obtain ⟨h1, h2, h3⟩ := I.plm p hp
        rw [hfrt] at h1
        refine ⟨by omega, h2, ?_⟩
        have hst : t.page_lba_map p ≠ lba := by
          intro he
          rw [he, hprev] at h3
          unfold Ckpt1.INVALID_PAGE at h3
          omega
        rw [upd_ne _ _ _ hst]
        exact h3
      · rw [hplm2, if_neg hprev] at hp ⊢
        have hpprev : p ≠ t.lba_page_map lba := by
          intro he
          apply hp
          rw [he, upd_eq]
        rw [upd_ne _ _ _ hpprev] at hp ⊢
        obtain ⟨h1, h2, h3⟩ := I.plm p hp
        rw [hfrt] at h1
        refine ⟨by omega, h2, ?_⟩
        have hst : t.page_lba_map p ≠ lba := by
          intro he
          rw [he] at h3
          exact hpprev h3.symm
        rw [upd_ne _ _ _ hst]
        exact h3
  · intro l
    dsimp only
    by_cases hcase : l = lba
    · subst hcase
      constructor
      · simp only [upd_eq]
        simp [hFne]
      · intro a ha
        simp only [upd_eq]
        rw [upd_eq] at ha
        exact (Option.some.inj ha).symm
    · constructor
      · rw [upd_ne _ _ _ hcase, upd_ne _ _ _ hcase]
        exact (I.ghost l).1
      · intro a ha
        rw [upd_ne _ _ _ hcase]
        rw [upd_ne _ _ _ hcase] at ha
        exact (I.ghost l).2 a ha

theorem inv_stepG (c : Config) (hWF : Ckpt1.WF c)
    (sg : Ckpt1.State × (Nat → Option Address))
    (I : Ckpt1.Inv c sg.1 sg.2) (op : Ckpt1.HostOp) :
    Ckpt1.Inv c (Ckpt1.stepG c sg op).1 (Ckpt1.stepG c sg op).2 := by
  obtain ⟨s, g⟩ := sg
  cases op with
  | read lba => exact I
  | trim lba => exact I
  | write lba =>
    by_cases hv : Ckpt1.IsValidLba c lba = false
    · simp only [Ckpt1.stepG, Ckpt1.writeTranslate, if_pos hv]
      exact I
    · have hlba : lba ≤ largest_lba c := by
        unfold Ckpt1.IsValidLba at hv
        simpa using hv
      by_cases hroll : c.block_size ≤ s.log_page_offset
      · by_cases hfree : s.free_log_blocks = []
        · simp only [Ckpt1.stepG, Ckpt1.writeTranslate, if_neg hv, if_pos hroll, if_pos hfree]
          exact I
        · -- roll over to the next free block, then append
          have hn : num_blocks c - (s.log_block + 1) ≠ 0 := by
            intro h0
            apply hfree
            rw [I.free_eq, h0]
            rfl
          obtain ⟨k, hk⟩ : ∃ k, num_blocks c - (s.log_block + 1) = k + 1 :=
            ⟨num_blocks c - (s.log_block + 1) - 1, by omega⟩
          have hhead : s.free_log_blocks.headD 0 = s.log_block + 1 := by
            rw [I.free_eq, hk]
            rfl
          have htail : s.free_log_blocks.tail = List.range' (s.log_block + 2) k := by
            rw [I.free_eq, hk]
            rfl
          have hofe : s.log_page_offset = c.block_size := le_antisymm I.off_le hroll
          set s1 : Ckpt1.State :=
            { s with
              used_log_blocks := s.used_log_blocks ++ [s.log_block]
              log_block := s.free_log_blocks.headD 0
              free_log_blocks := s.free_log_blocks.tail
              log_page_offset := 0 } with hs1
          have I1 : Ckpt1.Inv c s1 g := by
            have hfreq : Ckpt1.frontier c s1 = Ckpt1.frontier c s := by
              unfold Ckpt1.frontier
              show s.free_log_blocks.headD 0 * c.block_size + 0
                = s.log_block * c.block_size + s.log_page_offset
              rw [hhead, hofe]
              ring
            refine
              { off_le := Nat.zero_le _
                lb_lt := ?_
                free_eq := ?_
                lpm_hi := I.lpm_hi
                lpm := ?_
                plm := ?_
                ghost := I.ghost }
            · show s.free_log_blocks.headD 0 < num_blocks c
              rw [hhead]
              omega
            · show s.free_log_blocks.tail
                = List.range' (s.free_log_blocks.headD 0 + 1)
                  (num_blocks c - (s.free_log_blocks.headD 0 + 1))
              rw [htail, hhead, show num_blocks c - (s.log_block + 1 + 1) = k by omega]
            · intro l hl hne
              rw [hfreq]
              exact I.lpm l hl hne
            · intro p hp
              rw [hfreq]
              exact I.plm p hp
          by_cases hprev : s1.lba_page_map lba = Ckpt1.INVALID_PAGE
          · simp only [Ckpt1.stepG, Ckpt1.writeTranslate, if_neg hv, if_pos hroll,
              if_neg hfree, if_pos hprev]
            exact inv_append c hWF s1 g I1 lba hlba (by simpa [hs1] using hWF.1) _
              (by rw [if_pos hprev])
          · simp only [Ckpt1.stepG, Ckpt1.writeTranslate, if_neg hv, if_pos hroll,
              if_neg hfree, if_neg hprev]
            exact inv_append c hWF s1 g I1 lba hlba (by simpa [hs1] using hWF.1) _
              (by rw [if_neg hprev])
      · have hoff : s.log_page_offset < c.block_size := lt_of_not_ge hroll
        by_cases hprev : s.lba_page_map lba = Ckpt1.INVALID_PAGE
        · simp only [Ckpt1.stepG, Ckpt1.writeTranslate, if_neg hv, if_neg hroll, if_pos hprev]
          exact inv_append c hWF s g I lba hlba hoff _ (by rw [if_pos hprev])
        · simp only [Ckpt1.stepG, Ckpt1.writeTranslate, if_neg hv, if_neg hroll, if_neg hprev]
          exact inv_append c hWF s g I lba hlba hoff _ (by rw [if_neg hprev])

theorem inv_init (c : Config) (hWF : Ckpt1.WF c) :
    Ckpt1.Inv c (Ckpt1.init c) (fun _ => none) := by
  obtain ⟨hB, hop, hNP⟩ := hWF
  have hnb : 0 < num_blocks c := by omega
  obtain ⟨m, hm⟩ : ∃ m, num_blocks c = m + 1 := ⟨num_blocks c - 1, by omega⟩
  have hhd : (List.range (num_blocks c)).headD 0 = 0 := by
    rw [hm, List.range_succ_eq_map]
    rfl
  refine
    { off_le := Nat.zero_le _
      lb_lt := ?_
      free_eq := ?_
      lpm_hi := fun _ _ => rfl
      lpm := fun _ _ hne => absurd rfl hne
      plm := fun _ hne => absurd rfl hne
      ghost := fun _ => ⟨Iff.intro (fun _ => rfl) (fun _ => rfl), fun _ ha => nomatch ha⟩ }
  · show (List.range (num_blocks c)).headD 0 < num_blocks c
    rw [hhd]
    omega
  · show (List.range (num_blocks c)).tail
      = List.range' ((List.range (num_blocks c)).headD 0 + 1)
        (num_blocks c - ((List.range (num_blocks c)).headD 0 + 1))
    rw [hhd, hm, List.range_eq_range']
    show (List.range' 0 (m + 1)).tail = List.range' 1 (m + 1 - 1)
    rfl

theorem inv_foldl (c : Config) (hWF : Ckpt1.WF c) (ops : List Ckpt1.HostOp) :
    ∀ sg : Ckpt1.State × (Nat → Option Address), Ckpt1.Inv c sg.1 sg.2 →
      Ckpt1.Inv c (ops.foldl (Ckpt1.stepG c) sg).1 (ops.foldl (Ckpt1.stepG c) sg).2 := by
  induction ops with
  | nil => intro sg I; exact I
  | cons op rest ih =>
    intro sg I
    exact ih _ (inv_stepG c hWF sg I op)

theorem inv_runG (c : Config) (hWF : Ckpt1.WF c) (ops : List Ckpt1.HostOp) :
    Ckpt1.Inv c (Ckpt1.runG c ops).1 (Ckpt1.runG c ops).2 :=
  inv_foldl c hWF ops _ (inv_init c hWF)

theorem run_eq_runG (c : Config) (ops : List Ckpt1.HostOp) :
    Ckpt1.run c ops = (Ckpt1.runG c ops).1 := by
  unfold Ckpt1.run Ckpt1.runG
  suffices h : ∀ (s : Ckpt1.State) (g : Nat → Option Address),
      List.foldl (Ckpt1.step c) s ops = (List.foldl (Ckpt1.stepG c) (s, g) ops).1 from
    h _ _
  induction ops with
  | nil => intro s g; rfl
  | cons op rest ih =>
    intro s g
    have hstep1 : (Ckpt1.stepG c (s, g) op).1 = Ckpt1.step c s op := by
      cases op <;> rfl
    calc List.foldl (Ckpt1.step c) s (op :: rest)
        = List.foldl (Ckpt1.step c) (Ckpt1.step c s op) rest := rfl
      _ = (List.foldl (Ckpt1.stepG c)
            ((Ckpt1.stepG c (s, g) op).1, (Ckpt1.stepG c (s, g) op).2) rest).1 := by
          rw [hstep1]
          exact ih _ _
      _ = (List.foldl (Ckpt1.stepG c) (s, g) (op :: rest)).1 := by
          rw [Prod.mk.eta]
          rfl

/-- Claim C1: after every finite sequence of host operations from a freshly
constructed part_002 FTL, the logical-to-physical and physical-to-logical
maps are mutually inverse, and no two live physical pages carry the same
LBA. -/
theorem c1_maps_mutually_inverse (c : Config) (ops : List Ckpt1.HostOp)
    (h : Ckpt1.WF c) : Ckpt1.MapsInverse c (Ckpt1.run c ops) := by
  have I := inv_runG c h ops
  rw [run_eq_runG]
  refine ⟨fun l hl hne => (I.lpm l hl hne).2,
    fun p hp => ⟨(I.plm p hp).2.1, (I.plm p hp).2.2⟩, ?_⟩
  intro p q hp hq he
  have h1 := (I.plm p hp).2.2
  have h2 := (I.plm q hq).2.2
  rw [he] at h1
  exact h1.symm.trans h2

/-- Claim C1 witness: the invariant at the concrete two-block geometry after
a workload with first writes, overwrites, a log-tip rollover, trims and
reads. -/
theorem c1_maps_witness : Ckpt1.MapsInverse cfgA (Ckpt1.run cfgA opsA) :=
  c1_maps_mutually_inverse cfgA opsA (by unfold Ckpt1.WF; decide)

/-- Claim C4: for every LBA, ReadTranslate of part_002 issues no controller
operations; it fails exactly when the LBA is out of range or never
successfully written; otherwise it returns the address of the most recent
successful write of that LBA (the ghost map tracked by runG). -/
theorem c4_read_translate (c : Config) (h : Ckpt1.WF c) (ops : List Ckpt1.HostOp)
    (lba : Nat) : Ckpt1.ReadSpec c (Ckpt1.runG c ops).1 (Ckpt1.runG c ops).2 lba := by
  have I := inv_runG c h ops
  set s := (Ckpt1.runG c ops).1
  set g := (Ckpt1.runG c ops).2
  unfold Ckpt1.ReadSpec
  by_cases hv : lba ≤ largest_lba c
  · have hval : Ckpt1.IsValidLba c lba = true := by simp [Ckpt1.IsValidLba, hv]
    have hnlt : ¬ largest_lba c < lba := not_lt.mpr hv
    by_cases hmap : s.lba_page_map lba = Ckpt1.INVALID_PAGE
    · have hg : g lba = none := (I.ghost lba).1.mp hmap
      refine ⟨?_, ?_, ?_⟩
      · simp [Ckpt1.readTranslate, hval, hmap, hg]
      · intro a ha
        rw [hg] at ha
        exact nomatch ha
      · simp [Ckpt1.readTranslate, hval, hmap]
    · have hread : Ckpt1.readTranslate c s lba
          = ((.SUCCESS, Ckpt1.GetAddrFromPageIdx c (s.lba_page_map lba)), []) := by
        simp [Ckpt1.readTranslate, hval, hmap]
      have hg : g lba ≠ none := fun h0 => hmap ((I.ghost lba).1.mpr h0)
      refine ⟨?_, ?_, ?_⟩
      · rw [hread]
        simp [hnlt, hg]
      · intro a ha
        have hav := (I.ghost lba).2 a ha
        rw [hread, hav]
      · rw [hread]
  · have hval : Ckpt1.IsValidLba c lba = false := by
      simp [Ckpt1.IsValidLba]
      omega
    have hmap : s.lba_page_map lba = Ckpt1.INVALID_PAGE := I.lpm_hi lba (by omega)
    have hg : g lba = none := (I.ghost lba).1.mp hmap
    refine ⟨?_, ?_, ?_⟩
    · simp [Ckpt1.readTranslate, hval]
      omega
    · intro a ha
      rw [hg] at ha
      exact nomatch ha
    · simp [Ckpt1.readTranslate, hval]

/-- Claim C4 witness: the ReadTranslate specification at the concrete
two-block geometry and workload, for LBA 0. -/
theorem c4_read_translate_witness :
    Ckpt1.ReadSpec cfgA (Ckpt1.runG cfgA opsA).1 (Ckpt1.runG cfgA opsA).2 0 :=
  c4_read_translate cfgA (by unfold Ckpt1.WF; decide) opsA 0

/-- Claim C2 counterexample: on the two-block geometry, write LBA 0 (now
mapped), then Trim LBA 0: Trim returns SUCCESS but does not unmap, and the
subsequent ReadTranslate of LBA 0 with no intervening write returns SUCCESS
where the claim demands FAILURE. -/
theorem c2_trim_counterexample :
    (Ckpt1.run cfgA [.write 0]).lba_page_map 0 ≠ Ckpt1.INVALID_PAGE ∧
    (Ckpt1.trim cfgA (Ckpt1.run cfgA [.write 0]) 0).1 = .SUCCESS ∧
    (Ckpt1.readTranslate cfgA (Ckpt1.run cfgA [.write 0, .trim 0]) 0).1.1 = .SUCCESS := by
  decide

/-- Claim C2 amended: Trim of part_002 returns FAILURE exactly when the LBA
is out of range and SUCCESS otherwise; it performs no state change at all
(whether the LBA is mapped or not), so a subsequent ReadTranslate of a
mapped LBA still returns SUCCESS. -/
theorem c2_trim_amended (c : Config) (s : Ckpt1.State) (lba : Nat) :
    ((Ckpt1.trim c s lba).1 = .FAILURE ↔ largest_lba c < lba) ∧
    (Ckpt1.trim c s lba).2 = [] ∧
    Ckpt1.step c s (.trim lba) = s ∧
    (lba ≤ largest_lba c → s.lba_page_map lba ≠ Ckpt1.INVALID_PAGE →
      (Ckpt1.readTranslate c (Ckpt1.step c s (.trim lba)) lba).1.1 = .SUCCESS) := by
  refine ⟨?_, ?_, rfl, ?_⟩
  · by_cases hv : lba ≤ largest_lba c
    · have hval : Ckpt1.IsValidLba c lba = true := by simp [Ckpt1.IsValidLba, hv]
      simp [Ckpt1.trim, hval]
      omega
    · have hval : Ckpt1.IsValidLba c lba = false := by
        simp [Ckpt1.IsValidLba]
        omega
      simp [Ckpt1.trim, hval]
      omega
  · by_cases hval : Ckpt1.IsValidLba c lba = false <;> simp [Ckpt1.trim, hval]
  · intro hv hmap
    have hval : Ckpt1.IsValidLba c lba = true := by simp [Ckpt1.IsValidLba, hv]
    show (Ckpt1.readTranslate c s lba).1.1 = .SUCCESS
    simp [Ckpt1.readTranslate, hval, hmap]

/-- Claim C2 amended witness: read-after-trim of the mapped LBA 0 still
succeeds on the concrete two-block geometry. -/
theorem c2_trim_amended_witness :
    (Ckpt1.readTranslate cfgA
      (Ckpt1.step cfgA (Ckpt1.run cfgA [.write 0]) (.trim 0)) 0).1.1 = .SUCCESS :=
  (c2_trim_amended cfgA (Ckpt1.run cfgA [.write 0]) 0).2.2.2 (by decide) (by decide)

theorem eraseIter_form (bec blk : Nat) :
    ∀ n, n ≤ bec → Ctrl.eraseIter bec blk n
      = some (fun b => if b = blk then (if n = 0 then none else some (bec - n)) else none) := by
  intro n
  induction n with
  | zero =>
    intro _
    unfold Ctrl.eraseIter
    congr 1
    funext b
    by_cases hb : b = blk <;> simp [hb]
  | succ m ih =>
    intro hle
    rw [Ctrl.eraseIter, ih (by omega), Option.some_bind]
    unfold Ctrl.UpdateBlockErasure
    have hcur : ((fun b => if b = blk then (if m = 0 then none else some (bec - m)) else none) blk
        |>.getD bec) = bec - m := by
      by_cases hm : m = 0 <;> simp [hm]
    rw [hcur, if_neg (by omega : ¬ bec - m = 0)]
    congr 1
    funext b
    by_cases hb : b = blk
    · subst hb
      rw [upd_eq, (by omega : bec - m - 1 = bec - (m + 1)), if_pos rfl,
        if_neg (by omega : ¬ m + 1 = 0)]
    · simp [upd, hb]

/-- Claim C3: the controller permits exactly block_erase_count ERASE
operations per block: after n legal erases the lazily maintained budget of
the block equals block_erase_count - n (reaching exactly 0 on the final
legal erase), and the (block_erase_count + 1)-th erase raises the
block-worn-out FATAL error instead of decrementing below 0. -/
theorem c3_erase_budget (bec blk : Nat) :
    (∀ n, n ≤ bec → ∃ m, Ctrl.eraseIter bec blk n = some m ∧
      Ctrl.remaining bec m blk = bec - n) ∧
    Ctrl.eraseIter bec blk (bec + 1) = none := by
  constructor
  · intro n hn
    refine ⟨_, eraseIter_form bec blk n hn, ?_⟩
    unfold Ctrl.remaining
    by_cases hn0 : n = 0 <;> simp [hn0]
  · rw [Ctrl.eraseIter, eraseIter_form bec blk bec le_rfl, Option.some_bind]
    unfold Ctrl.UpdateBlockErasure
    by_cases hb : bec = 0 <;> simp [hb]

/-- Claim C3 witness: with budget 3, the third erase of a block is legal and
leaves 0 remaining, and the fourth raises the FATAL error. -/
theorem c3_erase_budget_witness :
    (∃ m, Ctrl.eraseIter 3 0 3 = some m ∧ Ctrl.remaining 3 m 0 = 0) ∧
    Ctrl.eraseIter 3 0 4 = none :=
  ⟨(c3_erase_budget 3 0).1 3 (by decide), (c3_erase_budget 3 0).2⟩

/-- Claim C6 counterexample: a controller state stamps physical page 0 with
logical LBA 7; a host read of LBA 5 whose translation points at page 0
returns SUCCESS and delivers the payload 99: the stamped LBA of the popped
entry is never compared with the requested LBA and no FATAL error is
raised. -/
theorem c6_read_delivery_counterexample :
    c6_state.physical_logical_map (Ctrl.AddressToLBA cfgA addr0) = some 7 ∧
    (7 : Nat) ≠ 5 ∧
    Ctrl.ReadLBA cfgA c6_ftl c6_state 5 = some (.SUCCESS, some 99) := by
  decide

/-- Claim C6 amended: on every successful host read, after executing READ at
the address returned by ReadTranslate, the controller pops the Buffer head
and delivers its payload without any verification of the stamped LBA: the
delivered result depends only on the translated address, whether or not the
stamp equals the requested LBA. -/
theorem c6_read_delivery_amended {Page : Type} (c : Config)
    (ftl : Nat → ExecState × Address) (st : Ctrl.ReadState Page) (lba : Nat)
    (a : Address) (stamp : Nat)
    (hbuf : st.page_buffer = []) (hftl : ftl lba = (.SUCCESS, a))
    (hmap : st.physical_logical_map (Ctrl.AddressToLBA c a) = some stamp) :
    Ctrl.ReadLBA c ftl st lba
      = some (.SUCCESS, some (st.store (Ctrl.AddressToLBA c a))) := by
  unfold Ctrl.ReadLBA Ctrl.ExecuteCommandRead
  rw [hftl]
  simp [hbuf, hmap]

/-- Claim C6 amended witness: the concrete mismatched read delivers the
stored payload. -/
theorem c6_read_delivery_amended_witness :
    Ctrl.ReadLBA cfgA c6_ftl c6_state 5
      = some (.SUCCESS, some (c6_state.store (Ctrl.AddressToLBA cfgA addr0))) :=
  c6_read_delivery_amended cfgA c6_ftl c6_state 5 addr0 7 rfl rfl (by decide)

/-- Claim C5: with geometry (4, 8, 2, 10, 16) and 5 percent
over-provisioning, the FTL computes 32 over-provisioned blocks out of 640
and largest_lba = 9727 = num_data_blocks * 16 - 1; writing LBA 0 and then
LBA 9727 succeeds, and writing LBA 10239 = num_raw_blocks * 16 - 1 fails
without mutating any state and without issuing controller operations. -/
theorem c5_overprovisioning_boundaries :
    num_blocks cfgS2 = 640 ∧ num_op_blocks cfgS2 = 32 ∧
    (num_blocks cfgS2 - num_op_blocks cfgS2) * 16 - 1 = 9727 ∧
    largest_lba cfgS2 = 9727 ∧ num_blocks cfgS2 * 16 - 1 = 10239 ∧
    Final.isSuccess s2_w0.1 = true ∧ Final.isSuccess s2_w1.1 = true ∧
    s2_w2.1 = .failure ∧ s2_w2.2.1 = s2_w1.2.1 ∧ s2_w2.2.2 = [] := by
  exact ⟨by decide, by decide, by decide, by decide, by decide, by decide, by decide,
    by decide, rfl, rfl⟩

/-- Claim C7 counterexample: with BLOCK_SIZE = 16 (geometry of S1),
seventeen consecutive host writes of LBA 0 all return SUCCESS, yet not a
single ERASE is issued by the controller during them: the first write takes
the empty data page and the next sixteen fill the log block exactly, so no
Clean runs before the seventeenth write completes. -/
theorem c7_seventeen_writes_counterexample :
    s1_run17.2.1.all Final.isSuccess = true ∧
    s1_run17.2.1.length = 17 ∧
    Final.countErase s1_run17.2.2 = 0 ∧
    ¬ 0 < Final.countErase s1_run17.2.2 := by
  decide

/-- Claim C7 amended: all seventeen writes return SUCCESS and no ERASE is
issued during them; the first ERASE operations are issued (via Clean) during
the eighteenth write of LBA 0, which also returns SUCCESS. -/
theorem c7_seventeen_writes_amended :
    s1_run17.2.1.all Final.isSuccess = true ∧
    s1_run17.2.1.length = 17 ∧
    Final.countErase s1_run17.2.2 = 0 ∧
    Final.isSuccess s1_w18.1 = true ∧
    0 < Final.countErase s1_w18.2.2 := by
  decide

/-- Claim C8 counterexample: after filling and overwriting three data blocks
on the six-block geometry with erase budget 1, the next write of LBA 0 fails
because GC aborts (the cleaning block is worn out); that FAILURE pops victim
block 1 from the round-robin queue without cleaning or requeueing it while
data_logblock_map still maps it, the first retry fails the same way and
empties the queue, and the second retry dequeues from the empty victim queue
(undefined behaviour of front() on an empty std::list, modelled as stuck):
the state after a GC-abort FAILURE is not one from which a later retry
behaves correctly. -/
theorem c8_gc_abort_counterexample :
    gc_setup.2.1.all Final.isSuccess = true ∧
    gc_abort.1 = .failure ∧
    gc_abort.2.1.blocks_queue = [2] ∧
    gc_abort.2.1.data_logblock_map 1 = some 5 ∧
    gc_retry1.1 = .failure ∧
    gc_retry1.2.1.blocks_queue = [] ∧
    gc_retry1.2.1.data_logblock_map 1 = some 5 ∧
    gc_retry2.1 = .stuck := by
  decide

/-- Claim C8 amended: a FAILURE from an out-of-range LBA leaves the state
unchanged, and a FAILURE caused by a GC abort leaves every mapping structure
(page-validity map, data-to-log-block map, erase counters, log LBA lists,
free list) unchanged while advancing the cleaning-block rotation index; but
it removes the selected victim from the round-robin queue without cleaning
or requeueing it, so a later retry does not behave correctly: consecutive
retries drain the queue and then dequeue from the empty queue. -/
theorem c8_gc_abort_amended :
    (∀ (c : Config) (fuel : Nat) (s : Final.State) (lba : Nat),
      largest_lba c < lba →
        Final.writeTranslate c (fuel + 1) s lba = (.failure, s, [])) ∧
    ((List.range (num_pages cfgGC)).all
      (fun p => gc_abort.2.1.pages_valid p == gc_setup.1.pages_valid p) = true) ∧
    ((List.range (num_blocks cfgGC)).all
      (fun b => gc_abort.2.1.data_logblock_map b == gc_setup.1.data_logblock_map b) = true) ∧
    ((List.range (num_blocks cfgGC)).all
      (fun b => gc_abort.2.1.erase_counts b == gc_setup.1.erase_counts b) = true) ∧
    ((List.range (num_blocks cfgGC)).all
      (fun b => gc_abort.2.1.logblock_lbas_map b == gc_setup.1.logblock_lbas_map b) = true) ∧
    gc_abort.2.1.free_log_blocks = gc_setup.1.free_log_blocks ∧
    gc_abort.2.1.curr_cleanblock_idx
      = (gc_setup.1.curr_cleanblock_idx + 1) % gc_setup.1.cleanblock_idxs.length ∧
    gc_setup.1.blocks_queue = 1 :: gc_abort.2.1.blocks_queue ∧
    gc_retry2.1 = .stuck := by
  refine ⟨?_, by decide, by decide, by decide, by decide, by decide, by decide,
    by decide, by decide⟩
  intro c fuel s lba h
  simp [Final.writeTranslate, h]

/-- Claim C8 amended witness: an out-of-range write on the six-block
geometry fails with the state unchanged. -/
theorem c8_gc_abort_amended_witness :
    Final.writeTranslate cfgGC 1 (Final.init cfgGC) 99
      = (.failure, Final.init cfgGC, []) :=
  c8_gc_abort_amended.1 cfgGC 0 (Final.init cfgGC) 99 (by decide)

theorem opRun_append (a b : List CtrlOp) :
    ∀ n, Final.opRun n (a ++ b) = (Final.opRun n a).bind fun m => Final.opRun m b := by
  induction a with
  | nil => intro n; rfl
  | cons o rest ih =>
    intro n
    obtain ⟨op, ad⟩ := o
    cases op with
    | READ => simpa [Final.opRun] using ih (n + 1)
    | WRITE =>
      cases n with
      | zero => simp [Final.opRun]
      | succ m => simpa [Final.opRun] using ih m
    | ERASE =>
      cases n with
      | zero => simpa [Final.opRun] using ih 0
      | succ m => simp [Final.opRun]

theorem copyLog_opRun (c : Config) (lb cb : Nat) :
    ∀ (l : List (Nat × Nat)) (lc : Nat → Bool) (n : Nat),
      Final.opRun n (Final.copyLogPages c lb cb l lc).2 = some n := by
  intro l
  induction l with
  | nil => intro lc n; rfl
  | cons p rest ih =>
    intro lc n
    obtain ⟨i, lba⟩ := p
    unfold Final.copyLogPages
    by_cases hlc : lc (Final.CalcPhyAddr c lba).page
    · simp only [hlc, if_true]
      exact ih lc n
    · simp only [hlc, if_false, Bool.false_eq_true]
      simp only [Final.opRun]
      exact ih _ n

theorem copyData_opRun (c : Config) (db cb : Nat) (pv : Nat → Bool) :
    ∀ (l : List Nat) (lc : Nat → Bool) (n : Nat),
      Final.opRun n (Final.copyDataPages c db cb pv l lc).2 = some n := by
  intro l
  induction l with
  | nil => intro lc n; rfl
  | cons i rest ih =>
    intro lc n
    unfold Final.copyDataPages
    by_cases hlc : lc i
    · simp only [hlc, if_true]
      exact ih lc n
    · simp only [hlc, if_false, Bool.false_eq_true]
      by_cases hpv : pv i = false
      · simp only [hpv, if_true]
        exact ih lc n
      · simp only [hpv, if_false]
        simp only [Final.opRun]
        exact ih _ n

theorem copyBack_opRun (c : Config) (cb db : Nat) (lc : Nat → Bool) :
    ∀ (l : List Nat) (n : Nat),
      Final.opRun n (Final.copyBackPages c cb db lc l) = some n := by
  intro l
  induction l with
  | nil => intro n; rfl
  | cons i rest ih =>
    intro n
    unfold Final.copyBackPages
    by_cases hlc : lc i
    · simp only [hlc, if_true]
      simp only [Final.opRun]
      exact ih n
    · simp only [hlc, if_false, Bool.false_eq_true]
      exact ih n

theorem clean_opRun (c : Config) (s : Final.State) (d : Nat) :
    Final.opRun 0 (Final.clean c s d).2.2 = some 0 := by
  unfold Final.clean
  dsimp only
  split
  · rfl
  · simp only [opRun_append, copyLog_opRun, copyData_opRun, copyBack_opRun,
      Option.some_bind, Final.opRun]

theorem wt_opRun (c : Config) :
    ∀ (fuel : Nat) (s : Final.State) (lba : Nat),
      Final.opRun 0 (Final.writeTranslate c fuel s lba).2.2 = some 0 := by
  intro fuel
  induction fuel with
  | zero => intro s lba; rfl
  | succ fuel ih =>
    intro s lba
    unfold Final.writeTranslate
    dsimp only
    repeat' split
    all_goals
      first
        | rfl
        | exact clean_opRun c _ _
        | (rw [opRun_append, clean_opRun, Option.some_bind]
           exact ih _ _)

theorem evtRun_append (a b : List Final.CtrlEvt) :
    ∀ n, Final.evtRun n (a ++ b) = (Final.evtRun n a).bind fun m => Final.evtRun m b := by
  induction a with
  | nil => intro n; rfl
  | cons e rest ih =>
    intro n
    cases e with
    | push => simpa [Final.evtRun] using ih (n + 1)
    | op o =>
      obtain ⟨op, ad⟩ := o
      cases op with
      | READ => simpa [Final.evtRun] using ih (n + 1)
      | WRITE =>
        cases n with
        | zero => simp [Final.evtRun]
        | succ m => simpa [Final.evtRun] using ih m
      | ERASE =>
        cases n with
        | zero => simpa [Final.evtRun] using ih 0
        | succ m => simp [Final.evtRun]

theorem evtRun_map_op (ops : List CtrlOp) :
    ∀ n, Final.evtRun n (ops.map Final.CtrlEvt.op) = Final.opRun n ops := by
  induction ops with
  | nil => intro n; rfl
  | cons o rest ih =>
    intro n
    obtain ⟨op, ad⟩ := o
    cases op with
    | READ => simpa [Final.evtRun, Final.opRun] using ih (n + 1)
    | WRITE =>
      cases n with
      | zero => simp [Final.evtRun, Final.opRun]
      | succ m => simpa [Final.evtRun, Final.opRun] using ih m
    | ERASE =>
      cases n with
      | zero => simpa [Final.evtRun, Final.opRun] using ih 0
      | succ m => simp [Final.evtRun, Final.opRun]

/-- Claim C10: during any host write against any state of the myFTL.cpp
model, replaying the controller events (the operations WriteTranslate issues
through the callback, then the WriteLBA push of the host payload and the
final WRITE at the returned address) from an empty page buffer never lets a
WRITE pop an empty buffer (and every ERASE sees an empty buffer), ending
with the buffer empty; ReadTranslate and Trim issue no operations at all. -/
theorem c10_buffer_discipline (c : Config) (fuel : Nat) (s : Final.State) (lba : Nat) :
    Final.evtRun 0 (Final.hostWriteEvents c fuel s lba) = some 0 ∧
    (Final.readTranslate c s lba).2 = [] ∧
    (Final.trim c s lba).2 = [] := by
  refine ⟨?_, ?_, rfl⟩
  · unfold Final.hostWriteEvents
    dsimp only
    rw [evtRun_append, evtRun_map_op, wt_opRun, Option.some_bind]
    split <;> rfl
  · unfold Final.readTranslate
    dsimp only
    repeat' split
    all_goals rfl

end FlashSim
